import Mathlib

/-!
Verification of the `temp_convert` routine from `src/ch3_practice.rs`.

The routine prints a prompt, reads one line from standard input (aborting
the process with the diagnostic "Failed to read line" if the read fails),
trims the line, parses it as an `i32` (substituting the sentinel `-1` on
parse failure), computes `(degf - 32) * 5 / 9` in `i32` arithmetic, and
prints `"{degf} -> {degc}"`.

Machine integers are embedded as `Int` with explicit two's-complement
wrapping modulo `2^32` where overflow matters; `i32` division is Rust's
truncating division, embedded as `Int.tdiv`.
-/

/-- The Unicode `White_Space` property, decided on the character's code
point, matching what Rust's `str::trim` strips (`char::is_whitespace`). -/
def isRustWhitespace (c : Char) : Bool :=
  (0x9 ≤ c.toNat && c.toNat ≤ 0xD) || c.toNat = 0x20 || c.toNat = 0x85 ||
  c.toNat = 0xA0 || c.toNat = 0x1680 ||
  (0x2000 ≤ c.toNat && c.toNat ≤ 0x200A) ||
  c.toNat = 0x2028 || c.toNat = 0x2029 || c.toNat = 0x202F ||
  c.toNat = 0x205F || c.toNat = 0x3000

/-- ASCII decimal digit test, as used by Rust's integer parser. -/
def isAsciiDigit (c : Char) : Bool :=
  48 ≤ c.toNat && c.toNat ≤ 57

/-- Rust's `str::trim`: remove leading and trailing whitespace. -/
def trimChars (cs : List Char) : List Char :=
  ((cs.dropWhile isRustWhitespace).reverse.dropWhile isRustWhitespace).reverse

/-- Parse a non-empty all-digit string of ASCII decimal digits,
most significant digit first. -/
def parseNat (cs : List Char) : Option Nat :=
  if cs = [] then none
  else if cs.all isAsciiDigit then
    some (cs.foldl (fun a c => a * 10 + (c.toNat - 48)) 0)
  else none

/-- The sign-and-digits phase of Rust's `i32::from_str`: an optional `+`
or `-` sign followed by one or more decimal digits, yielding the
unbounded integer value. -/
def parseSignDigits (cs : List Char) : Option Int :=
  match cs with
  | [] => none
  | c :: rest =>
    if c = '+' then (parseNat rest).map (fun n => (n : Int))
    else if c = '-' then (parseNat rest).map (fun n => -(n : Int))
    else (parseNat (c :: rest)).map (fun n => (n : Int))

def i32Min : Int := -2147483648
def i32Max : Int := 2147483647

/-- Rust's `str::parse::<i32>`: sign-and-digits syntax plus the `i32`
range check (Rust's checked accumulation fails exactly when the value
falls outside the `i32` range). -/
def parseI32 (cs : List Char) : Option Int :=
  match parseSignDigits cs with
  | some v => if i32Min ≤ v ∧ v ≤ i32Max then some v else none
  | none => none

/-- Two's-complement wrapping of an unbounded integer into the `i32`
range. -/
def wrap32 (n : Int) : Int :=
  (n + 2 ^ 31) % 2 ^ 32 - 2 ^ 31

/-- `i32` subtraction (wrapping, as compiled without overflow checks). -/
def i32Sub (a b : Int) : Int := wrap32 (a - b)

/-- `i32` multiplication (wrapping, as compiled without overflow checks). -/
def i32Mul (a b : Int) : Int := wrap32 (a * b)

/-- `let degf: i32 = match degf.trim().parse() { Ok(num) => num, Err(_) => -1 }`:
the parsed Fahrenheit value of a raw input line, with the `-1` sentinel
on parse failure. -/
def fahrenheitOf (line : List Char) : Int :=
  match parseI32 (trimChars line) with
  | some num => num
  | none => -1

/-- `let degc: i32 = (degf - 32) * 5 / 9;` in `i32` arithmetic. -/
def celsius (degf : Int) : Int :=
  Int.tdiv (i32Mul (i32Sub degf 32) 5) 9

/-- `println!("{degf} -> {degc}")`: the result line printed for a raw
input line. -/
def resultLine (line : List Char) : String :=
  toString (fahrenheitOf line) ++ " -> " ++ toString (celsius (fahrenheitOf line))

/-- The fixed prompt emitted before reading. -/
def promptLine : String := "Input a temp to convert to Celsius"

/-- The whole routine, as a function of the outcome of the one
`read_line` call: it returns the list of lines written to standard
output together with `some` panic diagnostic when the process is
aborted (`.expect("Failed to read line")`), or `none` on normal
completion. -/
def temp_convert (readResult : Except String (List Char)) :
    List String × Option String :=
  match readResult with
  | Except.error e => ([promptLine], some ("Failed to read line: " ++ e))
  | Except.ok line => ([promptLine, resultLine line], none)

/-! ## Helper lemmas -/

lemma wrap32_eq_self {n : Int} (h1 : i32Min ≤ n) (h2 : n ≤ i32Max) :
    wrap32 n = n := by
  unfold wrap32
  simp only [i32Min, i32Max] at h1 h2
  norm_num
  omega

lemma dropWhile_append_of_all {p : Char → Bool} {w : List Char}
    (s : List Char) (h : w.all p = true) :
    (w ++ s).dropWhile p = s.dropWhile p := by
  induction w with
  | nil => rfl
  | cons c t ih =>
    simp only [List.all_cons, Bool.and_eq_true] at h
    simp [List.dropWhile_cons, h.1, ih h.2]

lemma dropWhile_all_eq_nil {p : Char → Bool} {w : List Char}
    (h : w.all p = true) : w.dropWhile p = [] := by
  have := dropWhile_append_of_all (p := p) [] (w := w) h
  simpa using this

lemma trimChars_pad {w1 w2 : List Char} (s : List Char)
    (h1 : w1.all isRustWhitespace = true)
    (h2 : w2.all isRustWhitespace = true) :
    trimChars (w1 ++ s ++ w2) = trimChars s := by
  unfold trimChars
  rw [List.append_assoc, dropWhile_append_of_all _ h1,
    List.dropWhile_append]
  by_cases hs : (s.dropWhile isRustWhitespace).isEmpty = true
  · rw [if_pos hs]
    rw [List.isEmpty_iff] at hs
    rw [hs, dropWhile_all_eq_nil h2]
  · rw [if_neg hs]
    rw [List.reverse_append, dropWhile_append_of_all _ (by rw [List.all_reverse]; exact h2)]

lemma dropWhile_none_eq_self {p : Char → Bool} {s : List Char}
    (h : s.all (fun c => !p c) = true) : s.dropWhile p = s := by
  cases s with
  | nil => rfl
  | cons c t =>
    simp only [List.all_cons, Bool.and_eq_true, Bool.not_eq_true'] at h
    simp [List.dropWhile_cons, h.1]

lemma trimChars_eq_self {s : List Char}
    (h : s.all (fun c => !isRustWhitespace c) = true) : trimChars s = s := by
  unfold trimChars
  rw [dropWhile_none_eq_self h,
    dropWhile_none_eq_self (by rw [List.all_reverse]; exact h), List.reverse_reverse]

lemma not_whitespace_of_digit {c : Char} (h : isAsciiDigit c = true) :
    isRustWhitespace c = false := by
  simp only [isAsciiDigit, Bool.and_eq_true, decide_eq_true_eq] at h
  simp only [isRustWhitespace, Bool.or_eq_false_iff, Bool.and_eq_false_iff,
    decide_eq_false_iff_not]
  omega

/-- The canonical decimal spelling of a natural number: its base-10
digits, most significant first, as ASCII characters. -/
def decimalDigits (n : Nat) : List Char :=
  if n = 0 then ['0']
  else (Nat.digits 10 n).reverse.map (fun d => Char.ofNat (48 + d))

lemma toNat_digitChar {d : Nat} (h : d < 10) :
    (Char.ofNat (48 + d)).toNat = 48 + d := by
  interval_cases d <;> decide

lemma isAsciiDigit_digitChar {d : Nat} (h : d < 10) :
    isAsciiDigit (Char.ofNat (48 + d)) = true := by
  interval_cases d <;> decide

lemma decimalDigits_all_digit (n : Nat) :
    (decimalDigits n).all isAsciiDigit = true := by
  unfold decimalDigits
  by_cases h : n = 0
  · rw [if_pos h]; decide
  · rw [if_neg h, List.all_eq_true]
    intro c hc
    rw [List.mem_map] at hc
    obtain ⟨d, hd, rfl⟩ := hc
    rw [List.mem_reverse] at hd
    exact isAsciiDigit_digitChar (Nat.digits_lt_base (by norm_num) hd)

lemma decimalDigits_ne_nil (n : Nat) : decimalDigits n ≠ [] := by
  unfold decimalDigits
  by_cases h : n = 0
  · rw [if_pos h]; simp
  · rw [if_neg h]
    simp [Nat.digits_ne_nil_iff_ne_zero.mpr h]

lemma foldl_digitChars (L : List Nat) (hL : ∀ d ∈ L, d < 10) (acc : Nat) :
    (L.reverse.map (fun d => Char.ofNat (48 + d))).foldl
      (fun a c => a * 10 + (c.toNat - 48)) acc
      = acc * 10 ^ L.length + Nat.ofDigits 10 L := by
  induction L generalizing acc with
  | nil => simp [Nat.ofDigits]
  | cons d t ih =>
    have hd : d < 10 := hL d (by simp)
    have ht : ∀ x ∈ t, x < 10 := fun x hx => hL x (by simp [hx])
    rw [List.reverse_cons, List.map_append, List.foldl_append, ih ht acc]
    simp only [List.map_cons, List.map_nil, List.foldl_cons, List.foldl_nil]
    rw [toNat_digitChar hd, Nat.ofDigits_cons, List.length_cons,
      Nat.add_sub_cancel_left, pow_succ]
    ring

lemma parseNat_decimalDigits (n : Nat) :
    parseNat (decimalDigits n) = some n := by
  by_cases h : n = 0
  · subst h; decide
  · unfold parseNat
    rw [if_neg (decimalDigits_ne_nil n), if_pos (decimalDigits_all_digit n)]
    congr 1
    unfold decimalDigits
    rw [if_neg h,
      foldl_digitChars _ (fun d hd => Nat.digits_lt_base (by norm_num) hd) 0]
    simp [Nat.ofDigits_digits]

lemma digit_ne_sign {c : Char} (h : isAsciiDigit c = true) :
    c ≠ '+' ∧ c ≠ '-' := by
  constructor <;> rintro rfl <;> exact absurd h (by decide)

lemma parseSignDigits_decimalDigits (n : Nat) :
    parseSignDigits (decimalDigits n) = some (n : Int) := by
  have hall := decimalDigits_all_digit n
  obtain ⟨c, t, hct⟩ := List.exists_cons_of_ne_nil (decimalDigits_ne_nil n)
  have hc : isAsciiDigit c = true := by
    rw [hct, List.all_cons, Bool.and_eq_true] at hall
    exact hall.1
  obtain ⟨hp, hm⟩ := digit_ne_sign hc
  rw [hct]
  simp only [parseSignDigits]
  rw [if_neg hp, if_neg hm, ← hct, parseNat_decimalDigits]
  rfl

lemma parseSignDigits_plus_decimalDigits (n : Nat) :
    parseSignDigits ('+' :: decimalDigits n) = some (n : Int) := by
  simp only [parseSignDigits]
  rw [if_pos trivial, parseNat_decimalDigits]
  rfl

lemma all_not_ws_of_all_digit {s : List Char}
    (h : s.all isAsciiDigit = true) :
    s.all (fun c => !isRustWhitespace c) = true := by
  rw [List.all_eq_true] at h ⊢
  intro c hc
  rw [Bool.not_eq_true']
  exact not_whitespace_of_digit (h c hc)

/-! ## Claims -/

/-- Counterexample for C1: the line "2147483647" parses successfully as an
i32, yet the printed Celsius value is not the truncated quotient
(f - 32) * 5 / 9 over unbounded integers, because the intermediate i32
multiplication wraps. -/
theorem C1_counterexample :
    parseI32 (trimChars "2147483647".data) = some 2147483647 ∧
    celsius 2147483647 ≠ Int.tdiv (((2147483647 : Int) - 32) * 5) 9 := by
  decide

/-- C1 (amended): whenever the intermediates f - 32 and (f - 32) * 5 fit
in the i32 range, the computed Celsius value is the truncated quotient
(f - 32) * 5 / 9, rounding toward zero; in particular input "32" yields
0, "212" yields 100, "98" yields 36, and "-40" yields -40. -/
theorem C1_formula_no_overflow :
    (∀ f : Int,
        i32Min ≤ f - 32 → f - 32 ≤ i32Max →
        i32Min ≤ (f - 32) * 5 → (f - 32) * 5 ≤ i32Max →
        celsius f = Int.tdiv ((f - 32) * 5) 9) ∧
    resultLine "32".data = "32 -> 0" ∧
    resultLine "212".data = "212 -> 100" ∧
    resultLine "98".data = "98 -> 36" ∧
    resultLine "-40".data = "-40 -> -40" := by
  refine ⟨?_, by decide, by decide, by decide, by decide⟩
  intro f h1 h2 h3 h4
  unfold celsius i32Mul i32Sub
  rw [wrap32_eq_self h1 h2, wrap32_eq_self h3 h4]

/-- Witness for C1: the amended formula applied at f = 98. -/
theorem C1_formula_no_overflow_witness :
    celsius 98 = Int.tdiv (((98 : Int) - 32) * 5) 9 :=
  C1_formula_no_overflow.1 98 (by decide) (by decide) (by decide) (by decide)

/-- Counterexample for C2: on the non-numeric line "abc" the sentinel -1
is indeed substituted, but the printed result line is "-1 -> -18", not
"-1 -> -40" as claimed. -/
theorem C2_counterexample :
    fahrenheitOf "abc".data = -1 ∧ resultLine "abc".data ≠ "-1 -> -40" := by
  decide

/-- C2 (amended): every line whose trimmed text fails to parse as an i32
silently yields the sentinel fahrenheit = -1, and the printed result line
is "-1 -> -18". -/
theorem C2_sentinel_fallback (line : List Char)
    (h : parseI32 (trimChars line) = none) :
    fahrenheitOf line = -1 ∧ resultLine line = "-1 -> -18" := by
  have hf : fahrenheitOf line = -1 := by
    unfold fahrenheitOf
    rw [h]
  refine ⟨hf, ?_⟩
  unfold resultLine
  rw [hf]
  rfl

/-- Witness for C2: the amended sentinel behavior at input "abc". -/
theorem C2_sentinel_fallback_witness :
    fahrenheitOf "abc".data = -1 ∧ resultLine "abc".data = "-1 -> -18" :=
  C2_sentinel_fallback "abc".data (by decide)

/-- C3: the division in the Celsius computation truncates toward zero for
negative dividends: -165 / 9 evaluates to -18 (so the sentinel reading -1
yields -18), not -19 as floor division toward negative infinity would. -/
theorem C3_truncation_toward_zero :
    celsius (-1) = -18 ∧ Int.tdiv (-165) 9 = -18 ∧
    Int.tdiv (-165) 9 ≠ -19 ∧ Int.fdiv (-165) 9 = -19 := by
  decide

/-- C4: surrounding whitespace (including the line terminator) is trimmed
before parsing and never changes the result line; in particular
"  100  \n" behaves exactly like "100" and yields "100 -> 37". -/
theorem C4_whitespace_tolerance :
    (∀ (w1 s w2 : List Char),
        w1.all isRustWhitespace = true → w2.all isRustWhitespace = true →
        resultLine (w1 ++ s ++ w2) = resultLine s) ∧
    resultLine "  100  \n".data = resultLine "100".data ∧
    resultLine "  100  \n".data = "100 -> 37" := by
  refine ⟨?_, by decide, by decide⟩
  intro w1 s w2 h1 h2
  unfold resultLine fahrenheitOf
  rw [trimChars_pad s h1 h2]

/-- Witness for C4: padding "100" with spaces and a newline preserves the
result line. -/
theorem C4_whitespace_tolerance_witness :
    resultLine ("  ".data ++ "100".data ++ "  \n".data) = resultLine "100".data :=
  C4_whitespace_tolerance.1 "  ".data "100".data "  \n".data (by decide) (by decide)

/-- C5: when the read from standard input fails, the routine aborts with
the diagnostic "Failed to read line", the only line already written is
the prompt, and no result line is ever among the written output. -/
theorem C5_read_failure_fatal :
    ∀ e : String,
      (temp_convert (Except.error e)).2 = some ("Failed to read line: " ++ e) ∧
      (temp_convert (Except.error e)).1 = [promptLine] ∧
      ∀ line : List Char, resultLine line ∉ (temp_convert (Except.error e)).1 := by
  intro e
  refine ⟨rfl, rfl, ?_⟩
  intro line hmem
  simp only [temp_convert, List.mem_singleton] at hmem
  have hgt : '>' ∈ (resultLine line).data := by
    unfold resultLine
    rw [String.data_append, String.data_append]
    refine List.mem_append.mpr (Or.inl (List.mem_append.mpr (Or.inr ?_)))
    decide
  rw [hmem] at hgt
  exact absurd hgt (by decide)

/-- Witness for C5: the fatal-read behavior at a concrete stream error. -/
theorem C5_read_failure_fatal_witness :
    (temp_convert (Except.error "stream closed")).2 =
      some ("Failed to read line: " ++ "stream closed") ∧
    resultLine "98".data ∉ (temp_convert (Except.error "stream closed")).1 :=
  ⟨(C5_read_failure_fatal "stream closed").1,
   (C5_read_failure_fatal "stream closed").2.2 "98".data⟩

/-- C6: a sign-and-digits numeral whose value lies outside the i32 range
fails to parse, so fahrenheit falls back to the sentinel -1, exactly as
for non-numeric text. -/
theorem C6_overflow_sentinel :
    (∀ (cs : List Char) (v : Int), parseSignDigits cs = some v →
        (v < i32Min ∨ i32Max < v) → parseI32 cs = none) ∧
    fahrenheitOf "2147483648".data = -1 ∧
    fahrenheitOf "-2147483649".data = -1 ∧
    resultLine "2147483648".data = resultLine "abc".data := by
  refine ⟨?_, by decide, by decide, by decide⟩
  intro cs v h hv
  simp only [parseI32, h]
  rw [if_neg]
  simp only [i32Min, i32Max] at hv ⊢
  omega

/-- Witness for C6: "2147483648" overflows i32 and fails to parse. -/
theorem C6_overflow_sentinel_witness :
    parseI32 "2147483648".data = none :=
  C6_overflow_sentinel.1 "2147483648".data 2147483648 (by decide) (by decide)

/-- C7: every invocation that survives the read writes exactly two lines:
the fixed prompt, then the result line with both integers printed in
signed decimal, and the process does not abort. -/
theorem C7_two_output_lines :
    ∀ line : List Char,
      temp_convert (Except.ok line) =
        ([promptLine,
          toString (fahrenheitOf line) ++ " -> " ++
            toString (celsius (fahrenheitOf line))], none) ∧
      (temp_convert (Except.ok line)).1.length = 2 := by
  intro line
  exact ⟨rfl, rfl⟩

/-- Witness for C7: the two output lines for input "98". -/
theorem C7_two_output_lines_witness :
    temp_convert (Except.ok "98".data) =
      (["Input a temp to convert to Celsius", "98 -> 36"], none) :=
  ((C7_two_output_lines "98".data).1).trans (by decide)

/-- C8: the routine is deterministic and the output is a pure function of
the parsed fahrenheit value: any two lines that parse to the same
fahrenheit (in particular, two invocations on the identical line) produce
the identical output. -/
theorem C8_deterministic :
    ∀ l1 l2 : List Char, fahrenheitOf l1 = fahrenheitOf l2 →
      temp_convert (Except.ok l1) = temp_convert (Except.ok l2) := by
  intro l1 l2 h
  simp only [temp_convert, resultLine]
  rw [h]

/-- Witness for C8: "98" and " 98 " parse alike and print alike. -/
theorem C8_deterministic_witness :
    temp_convert (Except.ok "98".data) = temp_convert (Except.ok " 98 ".data) :=
  C8_deterministic "98".data " 98 ".data (by decide)

/-- C9: input "2147483647" parses successfully, the intermediate i32
multiplication wraps modulo 2^32 (it differs from the unbounded product),
and the printed Celsius value 238609275 differs from the mathematical
truncated quotient (f - 32) * 5 / 9. -/
theorem C9_intermediate_overflow :
    parseI32 (trimChars "2147483647".data) = some 2147483647 ∧
    i32Mul (i32Sub 2147483647 32) 5 = wrap32 (((2147483647 : Int) - 32) * 5) ∧
    i32Mul (i32Sub 2147483647 32) 5 ≠ ((2147483647 : Int) - 32) * 5 ∧
    celsius 2147483647 ≠ Int.tdiv (((2147483647 : Int) - 32) * 5) 9 ∧
    celsius 2147483647 = 238609275 := by
  decide

/-- C10: a '+' sign followed by the decimal digits of any n in i32 range
parses successfully to n and produces the same result line as the plain
spelling. -/
theorem C10_plus_sign (n : Nat) (h : n ≤ 2147483647) :
    parseI32 ('+' :: decimalDigits n) = some (n : Int) ∧
    resultLine ('+' :: decimalDigits n) = resultLine (decimalDigits n) := by
  have hrange : i32Min ≤ (n : Int) ∧ (n : Int) ≤ i32Max := by
    simp only [i32Min, i32Max]
    omega
  have hplus : parseI32 ('+' :: decimalDigits n) = some (n : Int) := by
    simp only [parseI32, parseSignDigits_plus_decimalDigits]
    rw [if_pos hrange]
  have hplain : parseI32 (decimalDigits n) = some (n : Int) := by
    simp only [parseI32, parseSignDigits_decimalDigits]
    rw [if_pos hrange]
  refine ⟨hplus, ?_⟩
  have hds : (decimalDigits n).all (fun c => !isRustWhitespace c) = true :=
    all_not_ws_of_all_digit (decimalDigits_all_digit n)
  have htrim1 : trimChars ('+' :: decimalDigits n) = '+' :: decimalDigits n := by
    apply trimChars_eq_self
    rw [List.all_cons, Bool.and_eq_true]
    exact ⟨by decide, hds⟩
  have htrim2 : trimChars (decimalDigits n) = decimalDigits n :=
    trimChars_eq_self hds
  unfold resultLine fahrenheitOf
  rw [htrim1, htrim2, hplus, hplain]

/-- Witness for C10: "+98" parses to 98 and prints like "98". -/
theorem C10_plus_sign_witness :
    parseI32 ('+' :: decimalDigits 98) = some (98 : Int) ∧
    resultLine ('+' :: decimalDigits 98) = resultLine (decimalDigits 98) :=
  C10_plus_sign 98 (by decide)
